import Mathlib

/-!
A verification development for the DynamoDB repository/ORM layer of the
`yuki5155/go-aws` repository (package `dynamodb`, file `orm.go`).

The Go code is shallowly embedded: Go strings are Lean `String`s, Go string
primitives (`strings.Split`, `strings.HasPrefix`, `strings.TrimPrefix`,
`strings.Join`) are re-implemented structurally on the character list so that
everything is executable and provable; the reflective walk over a struct's
fields becomes a walk over an explicit list of field descriptions; the
AWS SDK client is an explicit store state (`Table`) together with pure
gateway functions; Go `error` values become the inductive `GoErr`, with
`errors.New` sentinels, `fmt.Errorf` fresh errors and `%w`-wrapped errors
kept apart so that `errors.Is` can be modelled faithfully.
-/

namespace GoAws

/-! ### Go string primitives -/

/-- Splitting a character list at every occurrence of the character `c`,
matching Go's `strings.Split(s, c)` for a one-character separator:
the empty string yields one empty part, and separators at the ends yield
empty parts. -/
def splitOnChar (c : Char) : List Char → List (List Char)
  | [] => [[]]
  | x :: xs =>
    if x = c then [] :: splitOnChar c xs
    else
      match splitOnChar c xs with
      | [] => [[x]]
      | y :: ys => (x :: y) :: ys

/-- Whether `p` is an initial segment of `s` (Go `strings.HasPrefix`). -/
def startsWithList : List Char → List Char → Bool
  | [], _ => true
  | _ :: _, [] => false
  | p :: ps, s :: ss => p = s && startsWithList ps ss

/-- Go `strings.Split(s, sep)` for a one-character separator `c`. -/
def goSplit (c : Char) (s : String) : List String :=
  (splitOnChar c s.data).map String.mk

/-- Go `strings.HasPrefix(s, p)`. -/
def goStartsWith (p s : String) : Bool :=
  startsWithList p.data s.data

/-- Go `strings.TrimPrefix(s, p)`: drops `p` when it is a leading segment
of `s` and returns `s` unchanged otherwise. -/
def goTrimPre (p s : String) : String :=
  if goStartsWith p s then ⟨s.data.drop p.data.length⟩ else s

/-- Go `strings.Join(parts, sep)`. -/
def goJoin (sep : String) (parts : List String) : String :=
  ⟨List.intercalate sep.data (parts.map String.data)⟩

/-- The last element of a list, or `d` when the list is empty. -/
def lastD (d : α) : List α → α
  | [] => d
  | x :: xs => lastD x xs

lemma lastD_append_singleton (d : α) (l : List α) (a : α) :
    lastD d (l ++ [a]) = a := by
  induction l generalizing d with
  | nil => rfl
  | cons x xs ih => simpa [lastD] using ih x

/-! ### The `dynamo` tag parser (`ParseDynamoTag`, orm.go lines 30-50) -/

/-- Holds the values parsed from one `dynamo` struct tag
(`DynamoTagParser` in orm.go). -/
@[ext]
structure DynamoTagParser where
  attributeName : String := ""
  keyType : String := ""
  index : String := ""
  required : Bool := false
deriving DecidableEq

/-- One iteration of the option loop of `ParseDynamoTag`: the Go `switch`
over a single comma-separated token after the first. -/
def applyTagOption (p : DynamoTagParser) (opt : String) : DynamoTagParser :=
  if goStartsWith "key=" opt then { p with keyType := goTrimPre "key=" opt }
  else if goStartsWith "index=" opt then { p with index := goTrimPre "index=" opt }
  else if opt = "required" then { p with required := true }
  else p

/-- Embedding of `ParseDynamoTag` (orm.go lines 30-50): early return on the
empty tag, first token (when non-empty) is the attribute name, remaining
tokens are folded through the option switch. -/
def ParseDynamoTag (tag : String) : DynamoTagParser :=
  if tag = "" then {}
  else
    let options := goSplit ',' tag
    let p : DynamoTagParser :=
      if options.headD "" ≠ "" then { attributeName := options.headD "" } else {}
    (options.drop 1).foldl applyTagOption p

/-- The `key=<role>` reading of a token, as the spec grammar describes it. -/
def keyOptOf (t : String) : Option String :=
  if goStartsWith "key=" t then some (goTrimPre "key=" t) else none

/-- The `index=<name>` reading of a token, as the spec grammar describes it. -/
def indexOptOf (t : String) : Option String :=
  if goStartsWith "index=" t then some (goTrimPre "index=" t) else none

/-- Modelled from the spec (§4.1), word for word, to compare with the code's
parser: comma-separated tokens; the first token (if non-empty) is the
attribute name; the remaining tokens, in any order, set the key role from
`key=<role>` (the last occurrence winning), the index name from
`index=<name>`, and the required flag from the literal `required`;
unrecognized tokens are ignored; parsing never fails. -/
def specParseDynamoTag (tag : String) : DynamoTagParser :=
  let tokens := goSplit ',' tag
  let rest := tokens.drop 1
  { attributeName := tokens.headD ""
    keyType := lastD "" (rest.filterMap keyOptOf)
    index := lastD "" (rest.filterMap indexOptOf)
    required := rest.any (· == "required") }

/-! ### Go error values

`errors.New` package-level sentinels, `fmt.Errorf` fresh errors and
`fmt.Errorf("...: %w", err)` wrapped errors are kept apart, so that
`errors.Is` (identity along the unwrap chain) can be stated. -/

inductive GoErr where
  | sentinel (ident : String)
  | fresh (msg : String)
  | wrapped (msg : String) (cause : GoErr)
deriving DecidableEq

/-- The package-level sentinel `ErrNotFound = errors.New("item not found")`
(orm.go line 70); its identity is the variable, not the message. -/
def ErrNotFound : GoErr := .sentinel "ErrNotFound"

/-- The package-level sentinel
`ErrDuplicateKey = errors.New("item with this key already exists")`. -/
def ErrDuplicateKey : GoErr := .sentinel "ErrDuplicateKey"

/-- Go `errors.Is`: identity comparison along the `%w` unwrap chain. -/
def errorsIs : GoErr → GoErr → Bool
  | .wrapped m c, target => (GoErr.wrapped m c == target) || errorsIs c target
  | e, target => e == target

/-- Decidable equality of `Except` results. -/
instance [DecidableEq ε] [DecidableEq α] : DecidableEq (Except ε α) := fun x y =>
  match x, y with
  | .ok a, .ok b =>
    if h : a = b then .isTrue (by rw [h]) else .isFalse (by simp [h])
  | .error a, .error b =>
    if h : a = b then .isTrue (by rw [h]) else .isFalse (by simp [h])
  | .ok _, .error _ => .isFalse (by simp)
  | .error _, .ok _ => .isFalse (by simp)

/-! ### Records, schemas and the repository -/

/-- A marshalled DynamoDB attribute value (`types.AttributeValue`),
kept abstract as its serialized form. -/
abbrev AttrVal := String

/-- An item as stored: a map from attribute name to attribute value,
modelled as an association list with Go-map (replace-on-insert) semantics. -/
abbrev Item := List (String × AttrVal)

/-- Lookup in an association list (Go map read). -/
def lookupAssoc : List (String × β) → String → Option β
  | [], _ => none
  | (k', v) :: rest, k => if k' = k then some v else lookupAssoc rest k

/-- Insert in an association list (Go map write: replaces an existing key,
appends a new one). -/
def insertAssoc : List (String × β) → String → β → List (String × β)
  | [], k, v => [(k, v)]
  | (k', v') :: rest, k, v =>
    if k' = k then (k, v) :: rest else (k', v') :: insertAssoc rest k v

/-- Repeated insertion of key-value pairs into an association list. -/
def foldInsert (m : List (String × β)) (l : List (String × β)) : List (String × β) :=
  l.foldl (fun m kv => insertAssoc m kv.1 kv.2) m

/-- Apply `f` to every element, succeeding only when every application
succeeds. -/
def mapOption (f : α → Option β) : List α → Option (List β)
  | [] => some []
  | x :: xs =>
    match f x, mapOption f xs with
    | some y, some ys => some (y :: ys)
    | _, _ => none

/-- One field of a Go struct value passed to the repository: its Go field
name, its `dynamo` tag (when the tag is present), its marshalled value and
whether the Go value is the zero value of its type (`reflect.IsZero`). -/
structure GoField where
  name : String
  tag : Option String
  value : AttrVal
  isZero : Bool
deriving DecidableEq

/-- A Go struct value: its fields in declaration order. -/
abbrev GoRecord := List GoField

/-- A record argument to the repository: the struct's fields plus the
table-naming capability (`TableNamer`), present when the type implements
`TableName() string`. -/
structure GoItemArg where
  fields : GoRecord
  tableNamer : Option String := none
deriving DecidableEq

/-- A record TYPE as seen through reflection (for output parameters):
the field names with their `dynamo` tags, plus the `TableNamer` capability. -/
structure ElemType where
  fieldTags : List (String × Option String)
  tableNamer : Option String := none
deriving DecidableEq

/-- The repository: its configured default table name (the SDK client is
modelled separately as the gateway state). -/
structure Repository where
  tableName : String
deriving DecidableEq

/-- Embedding of `Repository.getTableName` (orm.go lines 82-92): a record
implementing `TableNamer` (directly or through its pointee) overrides the
repository default. -/
def getTableName (r : Repository) (namer : Option String) : String :=
  namer.getD r.tableName

/-! ### Gateway request shapes (the fields of the SDK input structs that
the repository populates) -/

structure PutItemInput where
  tableName : String
  item : Item
  conditionExpression : String
deriving DecidableEq

structure GetItemInput where
  tableName : String
  key : List (String × AttrVal)
deriving DecidableEq

structure QueryInput where
  tableName : String
  indexName : String
  keyConditionExpression : String
  expressionAttributeValues : List (String × AttrVal)
deriving DecidableEq

structure ScanInput where
  tableName : String
  filterExpression : Option String := none
  expressionAttributeValues : List (String × AttrVal) := []
deriving DecidableEq

structure UpdateItemInput where
  tableName : String
  key : List (String × AttrVal)
  updateExpression : String
  expressionAttributeNames : List (String × String)
  expressionAttributeValues : List (String × AttrVal)
  conditionExpression : String
deriving DecidableEq

structure DeleteItemInput where
  tableName : String
  key : List (String × AttrVal)
  conditionExpression : String
deriving DecidableEq

/-- A request issued to the gateway, recorded in the order issued. -/
inductive Request where
  | putReq (i : PutItemInput)
  | getReq (i : GetItemInput)
  | queryReq (i : QueryInput)
  | scanReq (i : ScanInput)
  | updateReq (i : UpdateItemInput)
  | deleteReq (i : DeleteItemInput)
deriving DecidableEq

/-! ### The store (Persistence Gateway state)

Modelled from the spec (§6): a remote table holding items addressed by a
single hash-key attribute, with conditional-write primitives that report a
conditional-check failure distinctly from other failures. An injected
`fault` models a transport failure of the next call. -/

/-- The remote table: its hash-key attribute (key schema), its items, and
an optional injected transport fault. -/
structure Table where
  hashKeyAttr : String
  items : List Item
  fault : Option GoErr := none
deriving DecidableEq

/-- A gateway-level failure: a conditional-check failure
(`types.ConditionalCheckFailedException`) or any other error. -/
inductive GatewayErr where
  | condFailed
  | transport (cause : GoErr)
deriving DecidableEq

/-- Whether an item satisfies every equation of a key map. -/
def itemMatchesKey (it : Item) (key : List (String × AttrVal)) : Bool :=
  key.all fun kv => lookupAssoc it kv.1 == some kv.2

/-- Replace the first list entry satisfying `p` with `new`. -/
def replaceFirst (p : Item → Bool) (new : Item) : List Item → List Item
  | [] => []
  | it :: rest => if p it then new :: rest else it :: replaceFirst p new rest

/-- Positional parse of a `attribute_not_exists(<name>)` condition. -/
def parseAttrNotExists (s : String) : Option String :=
  let cs := s.data
  if cs.take 21 = "attribute_not_exists(".data ∧ cs.getLast? = some ')' then
    some ⟨(cs.drop 21).dropLast⟩
  else none

/-- Positional parse of a `attribute_exists(<name>)` condition. -/
def parseAttrExists (s : String) : Option String :=
  let cs := s.data
  if cs.take 17 = "attribute_exists(".data ∧ cs.getLast? = some ')' then
    some ⟨(cs.drop 17).dropLast⟩
  else none

/-- Modelled from the spec (§6 `putItem`): locate the item with the same
hash-key value as the new item; an `attribute_not_exists` condition fails
exactly when that item exists and carries the attribute; on success the new
item is inserted (or replaces the item with the same key). -/
def gatewayPutItem (t : Table) (input : PutItemInput) : Except GatewayErr Table :=
  match t.fault with
  | some e => .error (.transport e)
  | none =>
    match lookupAssoc input.item t.hashKeyAttr with
    | none => .error (.transport (.fresh "missing key attribute"))
    | some kv =>
      let sameKey : Item → Bool := fun it => lookupAssoc it t.hashKeyAttr == some kv
      let existing := t.items.find? sameKey
      let condOk : Bool :=
        if input.conditionExpression = "" then true
        else
          match parseAttrNotExists input.conditionExpression with
          | some a =>
            match existing with
            | none => true
            | some it => !(lookupAssoc it a).isSome
          | none => false
      if condOk then
        .ok { t with items :=
          match existing with
          | none => t.items ++ [input.item]
          | some _ => replaceFirst sameKey input.item t.items }
      else .error .condFailed

/-- Modelled from the spec (§6 `getItem`): the item matching the key map,
or absence. -/
def gatewayGetItem (t : Table) (input : GetItemInput) :
    Except GatewayErr (Option Item) :=
  match t.fault with
  | some e => .error (.transport e)
  | none => .ok (t.items.find? fun it => itemMatchesKey it input.key)

/-- Positional parse of the equality expression `<name> = :v` used for
key conditions and filters. -/
def parseEqColonV (s : String) : Option String :=
  let cs := s.data
  if cs.length ≥ 5 ∧ cs.drop (cs.length - 5) = " = :v".data then
    some ⟨cs.take (cs.length - 5)⟩
  else none

/-- Modelled from the spec (§6 `query`): the items whose attribute named in
the equality key condition equals the bound value. -/
def gatewayQuery (t : Table) (input : QueryInput) : Except GatewayErr (List Item) :=
  match t.fault with
  | some e => .error (.transport e)
  | none =>
    match parseEqColonV input.keyConditionExpression,
        lookupAssoc input.expressionAttributeValues ":v" with
    | some a, some v => .ok (t.items.filter fun it => lookupAssoc it a == some v)
    | _, _ => .error (.transport (.fresh "invalid key condition expression"))

/-- Modelled from the spec (§5, §6 `scan`): the matching items, delivered a
page at a time — at most `pageLimit` items per call, together with the
continuation token (the start position of the next page) when more remain.
The repository never passes a continuation token, so every call starts at
the beginning. -/
def gatewayScan (t : Table) (pageLimit : Nat) (input : ScanInput) :
    Except GatewayErr (List Item × Option Nat) :=
  match t.fault with
  | some e => .error (.transport e)
  | none =>
    let matchedE : Except GatewayErr (List Item) :=
      match input.filterExpression with
      | none => .ok t.items
      | some f =>
        match parseEqColonV f, lookupAssoc input.expressionAttributeValues ":v" with
        | some a, some v => .ok (t.items.filter fun it => lookupAssoc it a == some v)
        | _, _ => .error (.transport (.fresh "invalid filter expression"))
    match matchedE with
    | .error e => .error e
    | .ok matched =>
      .ok (matched.take pageLimit,
        if pageLimit < matched.length then some pageLimit else none)

/-- Modelled from the spec (§6 `deleteItem`): the item matching the key map
is removed; an `attribute_exists` condition fails when no item matches the
key or the matched item lacks the attribute. -/
def gatewayDeleteItem (t : Table) (input : DeleteItemInput) :
    Except GatewayErr Table :=
  match t.fault with
  | some e => .error (.transport e)
  | none =>
    let matchKey? : Item → Bool := fun it => itemMatchesKey it input.key
    match t.items.find? matchKey? with
    | none =>
      if input.conditionExpression = "" then .ok t
      else .error .condFailed
    | some it =>
      let condOk : Bool :=
        if input.conditionExpression = "" then true
        else
          match parseAttrExists input.conditionExpression with
          | some a => (lookupAssoc it a).isSome
          | none => false
      if condOk then .ok { t with items := t.items.filter fun i => !(matchKey? i) }
      else .error .condFailed

/-! ### Schema introspection helpers (the reflective loops of orm.go) -/

/-- The descriptor/value pairs of the fields carrying a `dynamo` tag,
in field order (the fields the reflective loops consider). -/
def taggedFields (fields : GoRecord) : List (DynamoTagParser × AttrVal) :=
  fields.filterMap fun f => f.tag.map fun tg => (ParseDynamoTag tg, f.value)

/-- The attribute names declared with `key=hash`, in field order
(the loop of `createConditionExpression`, orm.go lines 148-168). -/
def hashAttrs (fields : GoRecord) : List String :=
  fields.filterMap fun f => f.tag.bind fun tg =>
    let p := ParseDynamoTag tg
    if p.keyType = "hash" then some p.attributeName else none

/-- Whether one field violates required-field validation: its tag carries
`required` while its value is the zero value (the loop body of
`validateStruct`). -/
def requiredZero (f : GoField) : Bool :=
  match f.tag with
  | some tg => (ParseDynamoTag tg).required && f.isZero
  | none => false

/-- Embedding of `validateStruct` (orm.go lines 122-144): the first field
whose tag carries `required` while the value is the zero value produces the
error; otherwise validation succeeds. -/
def validateStruct (fields : GoRecord) : Except GoErr Unit :=
  match fields.find? requiredZero with
  | some f => .error (.fresh ("field " ++ f.name ++ " is required"))
  | none => .ok ()

/-- Embedding of `createConditionExpression` (orm.go lines 148-168):
`attribute_not_exists(<attr>)` for every `key=hash` field, joined with
`" AND "`; the empty string when there is none. -/
def createConditionExpression (fields : GoRecord) : String :=
  let conditions := (hashAttrs fields).map
    fun a => "attribute_not_exists(" ++ a ++ ")"
  if conditions = [] then "" else goJoin " AND " conditions

/-- Modelled from the spec (§4.4 step 2, §4.2): the attribute-value
marshaller (`attributevalue.MarshalMap`, third-party code outside this
repository) produces a map holding exactly the fields that carry a
declarative annotation, each under the attribute name its descriptor
declares; fields without an annotation are excluded entirely. -/
def marshalMap (fields : GoRecord) : Item :=
  fields.foldl (fun m f =>
    match f.tag with
    | none => m
    | some tg => insertAssoc m (ParseDynamoTag tg).attributeName f.value) []

/-! ### Repository.Create (orm.go lines 95-119) -/

/-- The `PutItemInput` Create builds: marshalled item, resolved table name,
duplicate-protection condition. -/
def buildPutInput (r : Repository) (arg : GoItemArg) : PutItemInput :=
  { tableName := getTableName r arg.tableNamer
    item := marshalMap arg.fields
    conditionExpression := createConditionExpression arg.fields }

/-- Embedding of `Repository.Create`: validation first (before any gateway
call), then the conditional put; a conditional-check failure maps to
`ErrDuplicateKey`, any other gateway failure is wrapped. Returns the result,
the store state after the call and the list of requests issued. -/
def RepoCreate (r : Repository) (arg : GoItemArg) (t : Table) :
    Except GoErr Unit × Table × List Request :=
  match validateStruct arg.fields with
  | .error e => (.error (.wrapped "validation error" e), t, [])
  | .ok _ =>
    let input := buildPutInput r arg
    match gatewayPutItem t input with
    | .ok t' => (.ok (), t', [.putReq input])
    | .error .condFailed => (.error ErrDuplicateKey, t, [.putReq input])
    | .error (.transport cause) =>
      (.error (.wrapped "failed to put item" cause), t, [.putReq input])

/-! ### Repository.FindByID (orm.go lines 171-218) -/

/-- The loop of FindByID locating the hash-key attribute: the first field
whose tag declares `key=hash` (the loop breaks there), or none. -/
def firstHashAttr (e : ElemType) : Option String :=
  e.fieldTags.findSome? fun ft => ft.2.bind fun tg =>
    let p := ParseDynamoTag tg
    if p.keyType = "hash" then some p.attributeName else none

/-- Embedding of `Repository.FindByID`: locate the hash-key attribute of
the output type, issue a point-get on it, distinguish absence (fresh
`"item not found"` error, orm.go line 211) from a failed call (wrapped
`"failed to get item"` error, line 208). -/
def RepoFindByID (r : Repository) (e : ElemType) (id : AttrVal) (t : Table) :
    Except GoErr Item × List Request :=
  let tableName := getTableName r e.tableNamer
  match firstHashAttr e with
  | none => (.error (.fresh "no hash key defined in struct"), [])
  | some keyAttribute =>
    if keyAttribute = "" then (.error (.fresh "no hash key defined in struct"), [])
    else
      let input : GetItemInput := { tableName, key := [(keyAttribute, id)] }
      match gatewayGetItem t input with
      | .error (.transport cause) =>
        (.error (.wrapped "failed to get item" cause), [.getReq input])
      | .error .condFailed =>
        (.error (.wrapped "failed to get item" (.fresh "condition failed")),
          [.getReq input])
      | .ok none => (.error (.fresh "item not found"), [.getReq input])
      | .ok (some it) => (.ok it, [.getReq input])

/-! ### Repository.FindByParameter (orm.go lines 223-291) -/

/-- The routing loop of FindByParameter: the index name of the first field
whose descriptor has `attributeName` equal to the parameter and a non-empty
index name (the loop breaks there). -/
def findIndexFor (e : ElemType) (parameter : String) : Option String :=
  e.fieldTags.findSome? fun ft => ft.2.bind fun tg =>
    let p := ParseDynamoTag tg
    if p.attributeName = parameter ∧ p.index ≠ "" then some p.index else none

/-- Embedding of `Repository.FindByParameter`: an index Query with the
equality key-condition `<parameter> = :v` when the element type declares an
index for the parameter, a table Scan with the equality filter
`<parameter> = :v` otherwise. Returns the result and the requests issued. -/
def RepoFindByParameter (r : Repository) (e : ElemType) (parameter : String)
    (value : AttrVal) (t : Table) (pageLimit : Nat) :
    Except GoErr (List Item) × List Request :=
  let tableName := getTableName r e.tableNamer
  match findIndexFor e parameter with
  | some indexName =>
    let input : QueryInput :=
      { tableName, indexName
        keyConditionExpression := parameter ++ " = :v"
        expressionAttributeValues := [(":v", value)] }
    match gatewayQuery t input with
    | .ok items => (.ok items, [.queryReq input])
    | .error (.transport cause) =>
      (.error (.wrapped "failed to query" cause), [.queryReq input])
    | .error .condFailed =>
      (.error (.wrapped "failed to query" (.fresh "condition failed")),
        [.queryReq input])
  | none =>
    let input : ScanInput :=
      { tableName
        filterExpression := some (parameter ++ " = :v")
        expressionAttributeValues := [(":v", value)] }
    match gatewayScan t pageLimit input with
    | .ok page => (.ok page.1, [.scanReq input])
    | .error (.transport cause) =>
      (.error (.wrapped "failed to scan" cause), [.scanReq input])
    | .error .condFailed =>
      (.error (.wrapped "failed to scan" (.fresh "condition failed")),
        [.scanReq input])

/-! ### Repository.GetAll (orm.go lines 294-323) -/

/-- Embedding of `Repository.GetAll`: a single unfiltered Scan; the page the
gateway returns is unmarshalled into the output; the continuation token of
the scan result is never consulted. -/
def RepoGetAll (r : Repository) (e : ElemType) (t : Table) (pageLimit : Nat) :
    Except GoErr (List Item) × List Request :=
  let input : ScanInput := { tableName := getTableName r e.tableNamer }
  match gatewayScan t pageLimit input with
  | .ok page => (.ok page.1, [.scanReq input])
  | .error (.transport cause) =>
    (.error (.wrapped "failed to scan" cause), [.scanReq input])
  | .error .condFailed =>
    (.error (.wrapped "failed to scan" (.fresh "condition failed")),
      [.scanReq input])

/-! ### Repository.Delete (orm.go lines 418-445) -/

/-- Embedding of `Repository.Delete`: the key map is the single attribute
literally named `"id"`, the table is the repository's configured default
(`r.tableName`, not `getTableName` — there is no record parameter), and the
delete is conditional on `attribute_exists(id)`; a conditional-check
failure maps to the `ErrNotFound` sentinel. -/
def RepoDelete (r : Repository) (id : AttrVal) (t : Table) :
    Except GoErr Unit × Table × List Request :=
  let input : DeleteItemInput :=
    { tableName := r.tableName
      key := [("id", id)]
      conditionExpression := "attribute_exists(id)" }
  match gatewayDeleteItem t input with
  | .ok t' => (.ok (), t', [.deleteReq input])
  | .error .condFailed => (.error ErrNotFound, t, [.deleteReq input])
  | .error (.transport cause) =>
    (.error (.wrapped "failed to delete item" cause), t, [.deleteReq input])

/-! ### Repository.Update (orm.go lines 331-413) -/

/-- The loop state of `Repository.Update`: key attribute found so far, key
map, SET clause strings in order, and the placeholder maps. -/
@[ext]
structure UpdateAcc where
  keyAttr : String := ""
  keyMap : List (String × AttrVal) := []
  updateExpressions : List String := []
  exprAttrNames : List (String × String) := []
  exprAttrValues : List (String × AttrVal) := []
deriving DecidableEq

/-- One iteration of the field loop of `Repository.Update` (orm.go lines
350-381): fields without a tag or with an empty attribute name are skipped;
a `key=hash` field becomes the key; any other declared field contributes a
`#<attr> = :<attr>` SET clause and its placeholder bindings. -/
def updStep (acc : UpdateAcc) (f : GoField) : UpdateAcc :=
  match f.tag with
  | none => acc
  | some tg =>
    let p := ParseDynamoTag tg
    if p.attributeName = "" then acc
    else if p.keyType = "hash" then
      { acc with
        keyAttr := p.attributeName
        keyMap := insertAssoc acc.keyMap p.attributeName f.value }
    else
      { acc with
        updateExpressions := acc.updateExpressions ++
          ["#" ++ p.attributeName ++ " = :" ++ p.attributeName]
        exprAttrNames :=
          insertAssoc acc.exprAttrNames ("#" ++ p.attributeName) p.attributeName
        exprAttrValues :=
          insertAssoc acc.exprAttrValues (":" ++ p.attributeName) f.value }

/-- The request-building part of `Repository.Update` (orm.go lines 331-402):
walk the fields, fail when no hash key or no updatable field is declared,
join the SET clauses, bind the `#k` placeholder to the key attribute and
attach the `attribute_exists(#k)` condition. -/
def updateRequest (r : Repository) (arg : GoItemArg) : Except GoErr UpdateItemInput :=
  let tableName := getTableName r arg.tableNamer
  let acc := arg.fields.foldl updStep {}
  if acc.keyAttr = "" then .error (.fresh "no hash key defined in struct")
  else if acc.updateExpressions = [] then .error (.fresh "no updatable fields found")
  else .ok
    { tableName
      key := acc.keyMap
      updateExpression := "SET " ++ goJoin ", " acc.updateExpressions
      expressionAttributeNames := insertAssoc acc.exprAttrNames "#k" acc.keyAttr
      expressionAttributeValues := acc.exprAttrValues
      conditionExpression := "attribute_exists(#k)" }

/-- Trim leading and trailing spaces. -/
def trimSpaces (l : List Char) : List Char :=
  ((l.dropWhile (· = ' ')).reverse.dropWhile (· = ' ')).reverse

/-- Parse one SET clause `<name-placeholder> = <value-placeholder>`. -/
def parseSetClause (c : List Char) : Option (String × String) :=
  match splitOnChar '=' c with
  | [l, r] => some (⟨trimSpaces l⟩, ⟨trimSpaces r⟩)
  | _ => none

/-- Parse a `SET <ph> = <ph>, ...` update expression into its clauses. -/
def parseUpdateExpression (s : String) : Option (List (String × String)) :=
  let cs := s.data
  if cs.take 4 = "SET ".data then
    mapOption parseSetClause (splitOnChar ',' (cs.drop 4))
  else none

/-- Resolve the two placeholders of a SET clause through the
expression-attribute-name and -value maps. -/
def resolveClause (names : List (String × String)) (values : List (String × AttrVal))
    (c : String × String) : Option (String × AttrVal) :=
  match lookupAssoc names c.1, lookupAssoc values c.2 with
  | some a, some v => some (a, v)
  | _, _ => none

/-- Modelled from the spec (§6 `updateItem`): locate the item matching the
key map; the `attribute_exists` condition fails when no item matches or the
named attribute is missing; on success every SET clause of the update
expression assigns the bound value to the named attribute, and nothing else
of the item or of the table changes. -/
def gatewayUpdateItem (t : Table) (input : UpdateItemInput) : Except GatewayErr Table :=
  match t.fault with
  | some e => .error (.transport e)
  | none =>
    match parseAttrExists input.conditionExpression with
    | none => .error (.transport (.fresh "unsupported condition expression"))
    | some ph =>
      match lookupAssoc input.expressionAttributeNames ph with
      | none => .error (.transport (.fresh "unknown name placeholder"))
      | some condAttr =>
        match t.items.find? (fun it => itemMatchesKey it input.key) with
        | none => .error .condFailed
        | some it =>
          if (lookupAssoc it condAttr).isSome then
            match parseUpdateExpression input.updateExpression with
            | none => .error (.transport (.fresh "invalid update expression"))
            | some clauses =>
              match mapOption (resolveClause input.expressionAttributeNames
                  input.expressionAttributeValues) clauses with
              | none => .error (.transport (.fresh "unknown placeholder"))
              | some resolved =>
                .ok { t with items := replaceFirst (fun i => itemMatchesKey i input.key) (foldInsert it resolved) t.items }
          else .error .condFailed

/-- Embedding of `Repository.Update` (orm.go lines 331-413): build the
conditional update request, execute it, map a conditional-check failure to
the `ErrNotFound` sentinel and wrap any other failure. -/
def RepoUpdate (r : Repository) (arg : GoItemArg) (t : Table) :
    Except GoErr Unit × Table × List Request :=
  match updateRequest r arg with
  | .error e => (.error e, t, [])
  | .ok input =>
    match gatewayUpdateItem t input with
    | .ok t' => (.ok (), t', [.updateReq input])
    | .error .condFailed => (.error ErrNotFound, t, [.updateReq input])
    | .error (.transport cause) =>
      (.error (.wrapped "failed to update item" cause), t, [.updateReq input])

/-! ### Derived views of a record's schema, used to state the theorems -/

/-- The descriptor/value pairs the Update loop considers: fields with a tag
whose attribute name is non-empty, in field order. -/
def updDecls (fields : GoRecord) : List (DynamoTagParser × AttrVal) :=
  fields.filterMap fun f => f.tag.bind fun tg =>
    let p := ParseDynamoTag tg
    if p.attributeName = "" then none else some (p, f.value)

/-- The `key=hash` declarations among `updDecls`. -/
def updHash (fields : GoRecord) : List (DynamoTagParser × AttrVal) :=
  (updDecls fields).filter fun pv => pv.1.keyType = "hash"

/-- The non-key declarations among `updDecls` (the submitted updatable
fields). -/
def updNonKey (fields : GoRecord) : List (DynamoTagParser × AttrVal) :=
  (updDecls fields).filter fun pv => ¬ pv.1.keyType = "hash"

/-- The SET clause Update builds for one attribute. -/
def clauseOf (a : String) : String := "#" ++ a ++ " = :" ++ a

/-- The attribute-name/value pairs of the tagged fields, in field order. -/
def taggedPairs (fields : GoRecord) : List (String × AttrVal) :=
  fields.filterMap fun f => f.tag.map fun tg =>
    ((ParseDynamoTag tg).attributeName, f.value)

/-- An attribute name usable inside a DynamoDB expression: non-empty and
free of the separator characters of the expression syntax. -/
def identSafe (s : String) : Prop :=
  s ≠ "" ∧ ',' ∉ s.data ∧ ' ' ∉ s.data ∧ '=' ∉ s.data

instance (s : String) : Decidable (identSafe s) := by
  unfold identSafe
  infer_instance

/-! ### Concrete fixtures (the `User` record of the repository's tests) -/

/-- The tagged fields of the test `User` struct, with concrete values:
`ID "u1"`, `Email "a@x.com"`, `Name "A"`, `CreatedAt "100"`. -/
def userFields : GoRecord :=
  [{ name := "ID", tag := some "id,key=hash", value := "u1", isZero := false },
   { name := "Email", tag := some "email,required,index=email-index",
     value := "a@x.com", isZero := false },
   { name := "Name", tag := some "name,required", value := "A", isZero := false },
   { name := "CreatedAt", tag := some "created_at", value := "100", isZero := false }]

/-- A `User` value whose required `Email` and `Name` fields hold the zero
value, as in the repository's `Validate required fields` test. -/
def invalidUserFields : GoRecord :=
  [{ name := "ID", tag := some "id,key=hash", value := "u2", isZero := false },
   { name := "Email", tag := some "email,required,index=email-index",
     value := "", isZero := true },
   { name := "Name", tag := some "name,required", value := "", isZero := true },
   { name := "CreatedAt", tag := some "created_at", value := "100", isZero := false }]

/-- The `User` record as a Create/Update argument (its type implements
`TableName() string` returning `"Users"`). -/
def userArg : GoItemArg := { fields := userFields, tableNamer := some "Users" }

/-- The invalid `User` record as a Create argument. -/
def invalidUserArg : GoItemArg :=
  { fields := invalidUserFields, tableNamer := some "Users" }

/-- The `User` record type as reflected from an output parameter. -/
def userElem : ElemType :=
  { fieldTags := [("ID", some "id,key=hash"),
      ("Email", some "email,required,index=email-index"),
      ("Name", some "name,required"),
      ("CreatedAt", some "created_at")]
    tableNamer := some "Users" }

/-- A repository configured with a default table. -/
def demoRepo : Repository := { tableName := "Users" }

/-- A stored item as Create would have written `userFields`. -/
def storedUser : Item :=
  [("id", "u1"), ("email", "a@x.com"), ("name", "A"), ("created_at", "100")]

/-- A second stored item. -/
def storedUser2 : Item :=
  [("id", "u2"), ("email", "b@x.com"), ("name", "B"), ("created_at", "200")]

/-- A healthy table holding both users. -/
def twoUserTable : Table := { hashKeyAttr := "id", items := [storedUser, storedUser2] }

/-- A healthy empty table. -/
def emptyTable : Table := { hashKeyAttr := "id", items := [] }

/-- A partial update record carrying only the key and a new `Name`,
matching the spec's `Update({id, name})` frame example. -/
def nameOnlyUpdFields : GoRecord :=
  [{ name := "ID", tag := some "id,key=hash", value := "u1", isZero := false },
   { name := "Name", tag := some "name", value := "B", isZero := false }]

/-- The partial update record as an Update argument. -/
def nameOnlyUpdArg : GoItemArg :=
  { fields := nameOnlyUpdFields, tableNamer := some "Users" }

/-! ## Lemmas and theorems -/

lemma startsWithList_head (a b : Char) (ps ss : List Char)
    (h : startsWithList (a :: ps) (b :: ss) = true) : a = b := by
  have h' : (decide (a = b) && startsWithList ps ss) = true := h
  simp only [Bool.and_eq_true, decide_eq_true_eq] at h'
  exact h'.1

lemma not_key_and_index (t : String) (hk : goStartsWith "key=" t = true)
    (hi : goStartsWith "index=" t = true) : False := by
  unfold goStartsWith at hk hi
  cases hd : t.data with
  | nil =>
    rw [hd] at hk
    exact absurd hk (by decide)
  | cons b ss =>
    rw [hd] at hk hi
    have hk' : startsWithList ('k' :: ['e', 'y', '=']) (b :: ss) = true := hk
    have hi' : startsWithList ('i' :: ['n', 'd', 'e', 'x', '=']) (b :: ss) = true := hi
    have e1 := startsWithList_head _ _ _ _ hk'
    have e2 := startsWithList_head _ _ _ _ hi'
    rw [← e1] at e2
    exact absurd e2 (by decide)

lemma not_key_required (t : String) (hk : goStartsWith "key=" t = true)
    (hr : t = "required") : False := by
  subst hr
  exact absurd hk (by decide)

lemma not_index_required (t : String) (hi : goStartsWith "index=" t = true)
    (hr : t = "required") : False := by
  subst hr
  exact absurd hi (by decide)

lemma foldl_applyTagOption_attributeName (l : List String) (p : DynamoTagParser) :
    (l.foldl applyTagOption p).attributeName = p.attributeName := by
  induction l generalizing p with
  | nil => rfl
  | cons t ts ih =>
    simp only [List.foldl_cons, ih]
    unfold applyTagOption
    split
    · rfl
    · split
      · rfl
      · split <;> rfl

lemma foldl_applyTagOption_keyType (l : List String) (p : DynamoTagParser) :
    (l.foldl applyTagOption p).keyType = lastD p.keyType (l.filterMap keyOptOf) := by
  induction l generalizing p with
  | nil => rfl
  | cons t ts ih =>
    simp only [List.foldl_cons, List.filterMap_cons, ih]
    unfold applyTagOption keyOptOf
    by_cases hk : goStartsWith "key=" t = true
    · simp [hk, lastD]
    · by_cases hi : goStartsWith "index=" t = true
      · simp [hk, hi]
      · by_cases hr : t = "required"
        · subst hr
          simp [show goStartsWith "key=" "required" = false from by decide,
            show goStartsWith "index=" "required" = false from by decide]
        · simp [hk, hi, hr]

lemma foldl_applyTagOption_index (l : List String) (p : DynamoTagParser) :
    (l.foldl applyTagOption p).index = lastD p.index (l.filterMap indexOptOf) := by
  induction l generalizing p with
  | nil => rfl
  | cons t ts ih =>
    simp only [List.foldl_cons, List.filterMap_cons, ih]
    unfold applyTagOption indexOptOf
    by_cases hk : goStartsWith "key=" t = true
    · have hi : ¬ goStartsWith "index=" t = true := fun hi =>
        not_key_and_index t hk hi
      simp [hk, hi]
    · by_cases hi : goStartsWith "index=" t = true
      · simp [hk, hi, lastD]
      · by_cases hr : t = "required"
        · subst hr
          simp [show goStartsWith "key=" "required" = false from by decide,
            show goStartsWith "index=" "required" = false from by decide]
        · simp [hk, hi, hr]

lemma foldl_applyTagOption_required (l : List String) (p : DynamoTagParser) :
    (l.foldl applyTagOption p).required = (p.required || l.any (· == "required")) := by
  induction l generalizing p with
  | nil => simp
  | cons t ts ih =>
    simp only [List.foldl_cons, List.any_cons, ih]
    unfold applyTagOption
    by_cases hk : goStartsWith "key=" t = true
    · have hr : ¬ t = "required" := fun hr => not_key_required t hk hr
      have hbe : (t == "required") = false := beq_eq_false_iff_ne.mpr hr
      simp [hk, hbe]
    · by_cases hi : goStartsWith "index=" t = true
      · have hr : ¬ t = "required" := fun hr => not_index_required t hi hr
        have hbe : (t == "required") = false := beq_eq_false_iff_ne.mpr hr
        simp [hk, hi, hbe]
      · by_cases hr : t = "required"
        · subst hr
          simp [show goStartsWith "key=" "required" = false from by decide,
            show goStartsWith "index=" "required" = false from by decide]
        · have hbe : (t == "required") = false := beq_eq_false_iff_ne.mpr hr
          simp [hk, hi, hr, hbe]

/-- C9: for every annotation string the tag parser conforms to the grammar
the spec states: splitting on commas, the first token (if non-empty) becomes
the attribute name; the remaining tokens, in any order, set the key role
from `key=<role>`, the index name from `index=<name>`, and the required flag
from the literal `required`; unrecognized tokens are ignored; parsing never
fails (both sides are total functions) and a malformed option value yields
the empty string for that option; the function is pure (it is a Lean
function of the tag string alone). -/
theorem parseDynamoTag_conforms_to_spec_grammar (tag : String) :
    ParseDynamoTag tag = specParseDynamoTag tag := by
  by_cases h : tag = ""
  · subst h; rfl
  · simp only [ParseDynamoTag, specParseDynamoTag, h, if_false]
    refine DynamoTagParser.ext ?_ ?_ ?_ ?_
    · rw [foldl_applyTagOption_attributeName]
      by_cases h0 : (goSplit ',' tag).head?.getD "" = "" <;> simp [h0]
    · rw [foldl_applyTagOption_keyType]
      by_cases h0 : (goSplit ',' tag).head?.getD "" = "" <;> simp [h0]
    · rw [foldl_applyTagOption_index]
      by_cases h0 : (goSplit ',' tag).head?.getD "" = "" <;> simp [h0]
    · rw [foldl_applyTagOption_required]
      by_cases h0 : (goSplit ',' tag).head?.getD "" = "" <;> simp [h0]


/-! ### C10 — Repository.Delete -/

/-- C10: for every id, Delete always targets the repository's configured
default table with a key map whose single attribute is literally named
`"id"` and the condition `attribute_exists(id)`; it consults neither the
record type's declared schema (there is no record parameter) nor the
table-naming capability, so for any record type that resolves to a
different table through its `TableNamer`, the delete request never targets
that type's table. -/
theorem delete_targets_default_table_with_literal_id_key
    (r : Repository) (id : AttrVal) (t : Table) (e : ElemType) (n : String)
    (hn : e.tableNamer = some n) :
    (RepoDelete r id t).2.2 =
      [Request.deleteReq
        { tableName := r.tableName
          key := [("id", id)]
          conditionExpression := "attribute_exists(id)" }] ∧
    (n ≠ r.tableName →
      ∀ i, Request.deleteReq i ∈ (RepoDelete r id t).2.2 →
        i.tableName ≠ getTableName r e.tableNamer) := by
  have htrace : (RepoDelete r id t).2.2 =
      [Request.deleteReq
        { tableName := r.tableName
          key := [("id", id)]
          conditionExpression := "attribute_exists(id)" }] := by
    simp only [RepoDelete]
    split <;> rfl
  refine ⟨htrace, fun hne i hi => ?_⟩
  rw [htrace] at hi
  simp only [List.mem_singleton, Request.deleteReq.injEq] at hi
  subst hi
  simp only [getTableName, hn, Option.getD_some]
  exact fun hc => hne hc.symm

/-- Closed witness for C10 at concrete inputs. -/
theorem delete_targets_default_table_witness :
    (RepoDelete { tableName := "default" } "u1" emptyTable).2.2 =
      [Request.deleteReq
        { tableName := "default"
          key := [("id", "u1")]
          conditionExpression := "attribute_exists(id)" }] :=
  (delete_targets_default_table_with_literal_id_key
    { tableName := "default" } "u1" emptyTable userElem "Users" rfl).1

/-! ### C7 — Create validates before any store call -/

/-- C7: for every record with at least one required-flagged field holding
its zero value, Create returns the validation error naming the first such
field (in field order, `find?` returning the first match) and performs no
store call at all: the store state is returned unchanged and the request
trace is empty. -/
theorem create_validation_fails_fast_without_store_call
    (r : Repository) (arg : GoItemArg) (t : Table) (f : GoField)
    (hfind : arg.fields.find? requiredZero = some f) :
    RepoCreate r arg t =
      (.error (.wrapped "validation error"
          (.fresh ("field " ++ f.name ++ " is required"))), t, []) := by
  unfold RepoCreate validateStruct
  rw [hfind]

/-- Closed witness for C7: the invalid `User` record (zero `Email`) fails
naming `Email`, leaving the table untouched and issuing no request. -/
theorem create_validation_fails_fast_witness :
    RepoCreate demoRepo invalidUserArg twoUserTable =
      (.error (.wrapped "validation error" (.fresh "field Email is required")),
        twoUserTable, []) :=
  create_validation_fails_fast_without_store_call demoRepo invalidUserArg
    twoUserTable
    { name := "Email", tag := some "email,required,index=email-index",
      value := "", isZero := true }
    (by decide)

/-! ### C3 — GetAll and pagination -/

/-- C3 (evidence of the divergence): on a table holding two items whose
scan the gateway splits into pages of one, GetAll issues a single Scan and
returns only the first page — `storedUser2` is in the table but not in the
output, and no follow-up request carrying a continuation is ever issued. -/
theorem getAll_returns_partial_first_page :
    (RepoGetAll demoRepo userElem twoUserTable 1).1 = .ok [storedUser] ∧
    storedUser2 ∈ twoUserTable.items ∧
    storedUser2 ∉ [storedUser] ∧
    (RepoGetAll demoRepo userElem twoUserTable 1).2 =
      [Request.scanReq { tableName := "Users" }] := by decide

/-! ### C5 — FindByID and the not-found error -/

/-- C5 (counterexample to the claim as stated): when the point-get succeeds
but returns no item, FindByID returns a fresh `"item not found"` error
created by `fmt.Errorf` (orm.go line 211), which is NOT the `ErrNotFound`
sentinel: `errors.Is` of the returned error against `ErrNotFound` is false. -/
theorem findByID_absent_error_is_not_the_sentinel :
    (RepoFindByID demoRepo userElem "missing" emptyTable).1 =
      .error (.fresh "item not found") ∧
    errorsIs (GoErr.fresh "item not found") ErrNotFound = false ∧
    errorsIs (GoErr.fresh "item not found") (GoErr.sentinel "ErrNotFound") = false := by
  decide

/-- C5 (amended): when the point-get succeeds but returns no item, FindByID
returns a fresh error with message `"item not found"` — not the package's
`ErrNotFound` sentinel — and this result is distinguishable from any
transport failure, which is returned as a distinct wrapped
`"failed to get item"` error. -/
theorem findByID_absent_distinct_from_transport
    (r : Repository) (e : ElemType) (id : AttrVal) (t : Table) (k : String)
    (hk : firstHashAttr e = some k) (hkne : ¬ k = "")
    (hfault : t.fault = none)
    (habsent : t.items.find? (fun it => itemMatchesKey it [(k, id)]) = none) :
    (RepoFindByID r e id t).1 = .error (.fresh "item not found") ∧
    (∀ (t' : Table) (cause : GoErr), t'.fault = some cause →
      (RepoFindByID r e id t').1 =
        .error (.wrapped "failed to get item" cause)) ∧
    (∀ cause, GoErr.fresh "item not found" ≠
      GoErr.wrapped "failed to get item" cause) := by
  refine ⟨?_, ?_, ?_⟩
  · unfold RepoFindByID gatewayGetItem
    rw [hk]
    simp only [hkne, if_false, hfault, habsent]
  · intro t' cause hf
    unfold RepoFindByID gatewayGetItem
    rw [hk]
    simp only [hkne, if_false, hf]
  · intro cause
    simp

/-- Closed witness for C5's amended statement at concrete inputs. -/
theorem findByID_absent_distinct_witness :
    (RepoFindByID demoRepo userElem "nobody" emptyTable).1 =
      .error (.fresh "item not found") ∧
    (∀ (t' : Table) (cause : GoErr), t'.fault = some cause →
      (RepoFindByID demoRepo userElem "nobody" t').1 =
        .error (.wrapped "failed to get item" cause)) ∧
    (∀ cause, GoErr.fresh "item not found" ≠
      GoErr.wrapped "failed to get item" cause) :=
  findByID_absent_distinct_from_transport demoRepo userElem "nobody" emptyTable
    "id" (by decide) (by decide) rfl (by decide)



/-! ### Association-list and string helper lemmas -/

lemma goJoin_singleton (sep x : String) : goJoin sep [x] = x := by
  unfold goJoin
  simp [List.intercalate]

lemma attrNotExists_ne_empty (a : String) :
    ¬ ("attribute_not_exists(" ++ a ++ ")" = "") := by
  intro h
  have h2 := congrArg (fun s => s.data.length) h
  simp only [String.data_append, List.length_append] at h2
  have e1 : ("attribute_not_exists(" : String).data.length = 21 := rfl
  have e2 : (")" : String).data.length = 1 := rfl
  have e3 : ("" : String).data.length = 0 := rfl
  rw [e1, e2, e3] at h2
  omega

lemma parseAttrNotExists_roundtrip (a : String) :
    parseAttrNotExists ("attribute_not_exists(" ++ a ++ ")") = some a := by
  have hd : ("attribute_not_exists(" ++ a ++ ")").data =
      "attribute_not_exists(".data ++ (a.data ++ [')']) := by
    have h1 : (")" : String).data = [')'] := rfl
    simp [String.data_append, h1]
  have htake : ("attribute_not_exists(".data ++ (a.data ++ [')'])).take 21 =
      "attribute_not_exists(".data := by
    have hl : ("attribute_not_exists(".data).length = 21 := rfl
    rw [← hl, List.take_left]
  have hlast : ("attribute_not_exists(".data ++ (a.data ++ [')'])).getLast? =
      some ')' := by
    rw [← List.append_assoc]
    exact List.getLast?_concat _
  have hdrop : ("attribute_not_exists(".data ++ (a.data ++ [')'])).drop 21 =
      a.data ++ [')'] := by
    have hl : ("attribute_not_exists(".data).length = 21 := rfl
    rw [← hl, List.drop_left]
  simp only [parseAttrNotExists, hd, htake, hlast, hdrop]
  simp [List.dropLast_concat]

lemma insertAssoc_of_not_mem (m : List (String × β)) (k : String) (v : β)
    (h : k ∉ m.map Prod.fst) : insertAssoc m k v = m ++ [(k, v)] := by
  induction m with
  | nil => rfl
  | cons kv rest ih =>
    obtain ⟨k', v'⟩ := kv
    simp only [List.map_cons, List.mem_cons] at h
    push_neg at h
    unfold insertAssoc
    rw [if_neg (fun he => h.1 he.symm)]
    rw [ih h.2]
    simp

lemma foldInsert_of_nodup (L : List (String × β)) (m : List (String × β))
    (hd : (L.map Prod.fst).Nodup)
    (hdisj : ∀ q ∈ L.map Prod.fst, q ∉ m.map Prod.fst) :
    foldInsert m L = m ++ L := by
  induction L generalizing m with
  | nil => simp [foldInsert]
  | cons kv rest ih =>
    obtain ⟨k, v⟩ := kv
    simp only [List.map_cons, List.nodup_cons] at hd
    have hstep : insertAssoc m k v = m ++ [(k, v)] :=
      insertAssoc_of_not_mem m k v (hdisj k (by simp))
    have hdisj' : ∀ q ∈ rest.map Prod.fst, q ∉ (m ++ [(k, v)]).map Prod.fst := by
      intro q hq hmem
      simp only [List.map_append, List.map_cons, List.map_nil] at hmem
      rcases List.mem_append.mp hmem with hm | hk
      · exact hdisj q (by simp [hq]) hm
      · have hqk : q = k := by simpa using hk
        exact hd.1 (hqk ▸ hq)
    unfold foldInsert
    rw [List.foldl_cons]
    show foldInsert (insertAssoc m k v) rest = m ++ (k, v) :: rest
    rw [hstep, ih _ hd.2 hdisj', List.append_assoc]
    rfl

lemma marshalMap_foldl_eq (fields : GoRecord) : ∀ m : Item,
    fields.foldl (fun m f =>
      match f.tag with
      | none => m
      | some tg => insertAssoc m (ParseDynamoTag tg).attributeName f.value) m
    = foldInsert m (taggedPairs fields) := by
  induction fields with
  | nil => intro m; rfl
  | cons f fs ih =>
    intro m
    cases hf : f.tag with
    | none =>
      simp only [List.foldl_cons, hf, taggedPairs, List.filterMap_cons]
      exact ih m
    | some tg =>
      simp only [List.foldl_cons, hf, taggedPairs, List.filterMap_cons,
        Option.map_some']
      rw [ih (insertAssoc m (ParseDynamoTag tg).attributeName f.value)]
      show foldInsert (insertAssoc m (ParseDynamoTag tg).attributeName f.value)
        (taggedPairs fs) =
        foldInsert m (((ParseDynamoTag tg).attributeName, f.value) :: taggedPairs fs)
      unfold foldInsert
      rw [List.foldl_cons]

lemma marshalMap_eq_taggedPairs (fields : GoRecord)
    (hnd : ((taggedPairs fields).map Prod.fst).Nodup) :
    marshalMap fields = taggedPairs fields := by
  unfold marshalMap
  rw [marshalMap_foldl_eq fields []]
  rw [foldInsert_of_nodup _ _ hnd (by simp)]
  rfl

/-- Shared fact: once validation passes, Create issues exactly the one
conditional put it built. -/
lemma repoCreate_trace (r : Repository) (arg : GoItemArg) (t : Table)
    (hv : validateStruct arg.fields = .ok ()) :
    (RepoCreate r arg t).2.2 = [.putReq (buildPutInput r arg)] := by
  simp only [RepoCreate, hv]
  split <;> rfl

/-! ### C4 — Create's duplicate-protection condition -/

/-- C4: for every record passing validation whose schema declares exactly
one hash-key attribute `a`, the conditional put request Create issues
carries the condition expression `attribute_not_exists(a)`; consequently,
on a healthy table keyed on `a` that already holds an item with the same
key value, the put fails the conditional check, Create returns
`ErrDuplicateKey` and the store is left unchanged — Create can only
insert, never overwrite. -/
theorem create_condition_asserts_hash_key_not_exists
    (r : Repository) (arg : GoItemArg) (t : Table) (a : String)
    (hv : validateStruct arg.fields = .ok ())
    (hh : hashAttrs arg.fields = [a]) :
    (buildPutInput r arg).conditionExpression =
      "attribute_not_exists(" ++ a ++ ")" ∧
    (RepoCreate r arg t).2.2 = [.putReq (buildPutInput r arg)] ∧
    (∀ (kv : AttrVal) (old : Item), t.fault = none → t.hashKeyAttr = a →
      lookupAssoc (marshalMap arg.fields) a = some kv →
      t.items.find? (fun it => lookupAssoc it a == some kv) = some old →
      (RepoCreate r arg t).1 = .error ErrDuplicateKey ∧
        (RepoCreate r arg t).2.1 = t) := by
  have hcond : createConditionExpression arg.fields =
      "attribute_not_exists(" ++ a ++ ")" := by
    unfold createConditionExpression
    rw [hh]
    simp only [List.map_cons, List.map_nil]
    rw [if_neg (by simp)]
    exact goJoin_singleton _ _
  refine ⟨hcond, repoCreate_trace r arg t hv, ?_⟩
  intro kv old hfault hkey hm hfound
  have hold : (lookupAssoc old a).isSome = true := by
    have hp := List.find?_some hfound
    simp only [beq_iff_eq] at hp
    rw [hp]; rfl
  have hne := eq_false (attrNotExists_ne_empty a)
  have hput : gatewayPutItem t (buildPutInput r arg) = .error .condFailed := by
    simp only [gatewayPutItem, buildPutInput, hfault, hkey, hm, hfound, hcond,
      hne, if_false, parseAttrNotExists_roundtrip, hold, Bool.not_true,
      Option.isSome_some]
    rfl
  constructor
  · simp only [RepoCreate, hv, hput]
  · simp only [RepoCreate, hv, hput]

/-- Closed witness for C4: creating `u1` again against the table that
already holds `u1`. -/
theorem create_condition_witness :
    (buildPutInput demoRepo userArg).conditionExpression =
      "attribute_not_exists(id)" ∧
    (RepoCreate demoRepo userArg twoUserTable).1 = .error ErrDuplicateKey ∧
    (RepoCreate demoRepo userArg twoUserTable).2.1 = twoUserTable := by
  have h := create_condition_asserts_hash_key_not_exists demoRepo userArg
    twoUserTable "id" (by decide) (by decide)
  exact ⟨h.1, (h.2.2 "u1" storedUser rfl rfl (by decide) (by decide)).1,
    (h.2.2 "u1" storedUser rfl rfl (by decide) (by decide)).2⟩

/-! ### C6 — Create marshals exactly the tagged fields -/

/-- C6: for every record passing validation whose declared attribute names
are unique (the spec's schema invariant), the item map Create sends to the
store is exactly the list of tagged fields, each under the attribute name
of its descriptor, in field order — fields without a `dynamo` annotation
(`taggedPairs` skips them) are excluded from marshaling entirely. -/
theorem create_item_is_exactly_the_tagged_fields
    (r : Repository) (arg : GoItemArg) (t : Table)
    (hv : validateStruct arg.fields = .ok ())
    (hnd : ((taggedPairs arg.fields).map Prod.fst).Nodup) :
    (buildPutInput r arg).item = taggedPairs arg.fields ∧
    (RepoCreate r arg t).2.2 = [.putReq (buildPutInput r arg)] := by
  refine ⟨?_, repoCreate_trace r arg t hv⟩
  show marshalMap arg.fields = taggedPairs arg.fields
  exact marshalMap_eq_taggedPairs arg.fields hnd

/-- Closed witness for C6: the `User` record marshals to exactly its four
tagged attributes. -/
theorem create_item_tagged_fields_witness :
    (buildPutInput demoRepo userArg).item =
      [("id", "u1"), ("email", "a@x.com"), ("name", "A"), ("created_at", "100")] ∧
    (RepoCreate demoRepo userArg emptyTable).2.2 =
      [.putReq (buildPutInput demoRepo userArg)] := by
  have h := create_item_is_exactly_the_tagged_fields demoRepo userArg emptyTable
    (by decide) (by decide)
  exact ⟨h.1.trans (by decide), h.2⟩


/-! ### C1 — FindByParameter routing -/

/-- C1: for every element type and parameter, FindByParameter issues an
index Query with the equality key-condition `<parameter> = :v` bound to the
given value when some field's descriptor has `attributeName` equal to the
parameter together with a non-empty index name (the first such field's
index); otherwise it issues a table Scan with the equality filter
`<parameter> = :v`. The request issued depends only on the declared tag
metadata of the element type — it is the same against every store state —
never on the stored data. -/
theorem findByParameter_routes_on_declared_index_only
    (r : Repository) (e : ElemType) (p : String) (v : AttrVal) :
    (∀ (t t' : Table) (pl pl' : Nat),
      (RepoFindByParameter r e p v t pl).2 = (RepoFindByParameter r e p v t' pl').2) ∧
    (∀ idx, findIndexFor e p = some idx →
      ∀ (t : Table) (pl : Nat), (RepoFindByParameter r e p v t pl).2 =
        [Request.queryReq
          { tableName := getTableName r e.tableNamer
            indexName := idx
            keyConditionExpression := p ++ " = :v"
            expressionAttributeValues := [(":v", v)] }]) ∧
    (findIndexFor e p = none →
      ∀ (t : Table) (pl : Nat), (RepoFindByParameter r e p v t pl).2 =
        [Request.scanReq
          { tableName := getTableName r e.tableNamer
            filterExpression := some (p ++ " = :v")
            expressionAttributeValues := [(":v", v)] }]) ∧
    ((findIndexFor e p).isSome ↔ ∃ ft ∈ e.fieldTags, ∃ tg, ft.2 = some tg ∧
      (ParseDynamoTag tg).attributeName = p ∧ (ParseDynamoTag tg).index ≠ "") := by
  have hq : ∀ idx, findIndexFor e p = some idx →
      ∀ (t : Table) (pl : Nat), (RepoFindByParameter r e p v t pl).2 =
        [Request.queryReq
          { tableName := getTableName r e.tableNamer
            indexName := idx
            keyConditionExpression := p ++ " = :v"
            expressionAttributeValues := [(":v", v)] }] := by
    intro idx hidx t pl
    simp only [RepoFindByParameter, hidx]
    split <;> rfl
  have hs : findIndexFor e p = none →
      ∀ (t : Table) (pl : Nat), (RepoFindByParameter r e p v t pl).2 =
        [Request.scanReq
          { tableName := getTableName r e.tableNamer
            filterExpression := some (p ++ " = :v")
            expressionAttributeValues := [(":v", v)] }] := by
    intro hidx t pl
    simp only [RepoFindByParameter, hidx]
    split <;> rfl
  refine ⟨?_, hq, hs, ?_⟩
  · intro t t' pl pl'
    cases h : findIndexFor e p with
    | some idx => rw [hq idx h t pl, hq idx h t' pl']
    | none => rw [hs h t pl, hs h t' pl']
  · unfold findIndexFor
    rw [List.findSome?_isSome_iff]
    constructor
    · rintro ⟨ft, hmem, hsome⟩
      cases hft : ft.2 with
      | none => rw [hft] at hsome; simp at hsome
      | some tg =>
        rw [hft] at hsome
        by_cases hc : (ParseDynamoTag tg).attributeName = p ∧
            (ParseDynamoTag tg).index ≠ ""
        · exact ⟨ft, hmem, tg, hft, hc.1, hc.2⟩
        · simp only [Option.some_bind, if_neg hc] at hsome
          simp at hsome
    · rintro ⟨ft, hmem, tg, hft, h1, h2⟩
      refine ⟨ft, hmem, ?_⟩
      rw [hft]
      simp [h1, h2]

/-- Closed witness for C1: `email` is indexed on the `User` type and routes
to a Query on `email-index`; `name` is not indexed and routes to a Scan —
against any of the two concrete store states. -/
theorem findByParameter_routes_witness :
    (RepoFindByParameter demoRepo userElem "email" "a@x.com" twoUserTable 10).2 =
      [Request.queryReq
        { tableName := "Users"
          indexName := "email-index"
          keyConditionExpression := "email = :v"
          expressionAttributeValues := [(":v", "a@x.com")] }] ∧
    (RepoFindByParameter demoRepo userElem "name" "A" emptyTable 10).2 =
      [Request.scanReq
        { tableName := "Users"
          filterExpression := some "name = :v"
          expressionAttributeValues := [(":v", "A")] }] := by
  constructor
  · exact ((findByParameter_routes_on_declared_index_only demoRepo userElem
      "email" "a@x.com").2.1 "email-index" (by decide) twoUserTable 10)
  · exact ((findByParameter_routes_on_declared_index_only demoRepo userElem
      "name" "A").2.2.1 (by decide) emptyTable 10)


/-! ### The Update fold characterized declaratively -/

lemma updDecls_cons_none (f : GoField) (fs : GoRecord) (hf : f.tag = none) :
    updDecls (f :: fs) = updDecls fs := by
  simp [updDecls, List.filterMap_cons, hf]

lemma updDecls_cons_skip (f : GoField) (fs : GoRecord) (tg : String)
    (hf : f.tag = some tg) (ha : (ParseDynamoTag tg).attributeName = "") :
    updDecls (f :: fs) = updDecls fs := by
  simp [updDecls, List.filterMap_cons, hf, ha]

lemma updDecls_cons_decl (f : GoField) (fs : GoRecord) (tg : String)
    (hf : f.tag = some tg) (ha : ¬ (ParseDynamoTag tg).attributeName = "") :
    updDecls (f :: fs) = (ParseDynamoTag tg, f.value) :: updDecls fs := by
  simp [updDecls, List.filterMap_cons, hf, ha]

lemma foldl_updStep_spec (fields : GoRecord) : ∀ acc : UpdateAcc,
    fields.foldl updStep acc =
      { keyAttr := lastD acc.keyAttr
          ((updHash fields).map fun pv => pv.1.attributeName)
        keyMap := foldInsert acc.keyMap
          ((updHash fields).map fun pv => (pv.1.attributeName, pv.2))
        updateExpressions := acc.updateExpressions ++
          ((updNonKey fields).map fun pv => clauseOf pv.1.attributeName)
        exprAttrNames := foldInsert acc.exprAttrNames
          ((updNonKey fields).map fun pv =>
            ("#" ++ pv.1.attributeName, pv.1.attributeName))
        exprAttrValues := foldInsert acc.exprAttrValues
          ((updNonKey fields).map fun pv => (":" ++ pv.1.attributeName, pv.2)) } := by
  induction fields with
  | nil =>
    intro acc
    ext <;> simp [updHash, updNonKey, updDecls, foldInsert, lastD]
  | cons f fs ih =>
    intro acc
    rw [List.foldl_cons, ih (updStep acc f)]
    cases hf : f.tag with
    | none =>
      simp only [updStep, hf]
      simp only [updHash, updNonKey, updDecls_cons_none f fs hf]
    | some tg =>
      by_cases ha : (ParseDynamoTag tg).attributeName = ""
      · simp only [updStep, hf, ha, if_true]
        simp only [updHash, updNonKey, updDecls_cons_skip f fs tg hf ha]
      · by_cases hk : (ParseDynamoTag tg).keyType = "hash"
        · simp only [updStep, hf, ha, hk, if_false, if_true, ite_true, ite_false]
          simp only [updHash, updNonKey, updDecls_cons_decl f fs tg hf ha]
          rw [List.filter_cons_of_pos (by simp [hk]),
            List.filter_cons_of_neg (by simp [hk])]
          simp only [List.map_cons]
          rfl
        · simp only [updStep, hf, ha, hk, if_false, ite_false]
          simp only [updHash, updNonKey, updDecls_cons_decl f fs tg hf ha]
          rw [List.filter_cons_of_neg (by simp [hk]),
            List.filter_cons_of_pos (by simp [hk])]
          simp only [List.map_cons, List.append_assoc, List.singleton_append]
          rfl

lemma lookupAssoc_insertAssoc (m : List (String × β)) (k q : String) (v : β) :
    lookupAssoc (insertAssoc m k v) q =
      if k = q then some v else lookupAssoc m q := by
  induction m with
  | nil => rfl
  | cons kv rest ih =>
    obtain ⟨a, b⟩ := kv
    by_cases hak : a = k
    · subst hak
      unfold insertAssoc
      rw [if_pos rfl]
      by_cases haq : a = q
      · simp [lookupAssoc, haq]
      · simp [lookupAssoc, haq]
    · unfold insertAssoc
      rw [if_neg hak]
      by_cases haq : a = q
      · have hkq : ¬ k = q := fun h => hak (haq ▸ h ▸ rfl)
        simp [lookupAssoc, haq, hkq]
      · simp [lookupAssoc, haq, ih]

lemma updateRequest_eq (r : Repository) (arg : GoItemArg)
    (pk : DynamoTagParser) (kv : AttrVal)
    (hhash : updHash arg.fields = [(pk, kv)])
    (hpk : ¬ pk.attributeName = "")
    (hnk : updNonKey arg.fields ≠ []) :
    updateRequest r arg = .ok
      { tableName := getTableName r arg.tableNamer
        key := [(pk.attributeName, kv)]
        updateExpression := "SET " ++ goJoin ", "
          ((updNonKey arg.fields).map fun pv => clauseOf pv.1.attributeName)
        expressionAttributeNames := insertAssoc
          (foldInsert [] ((updNonKey arg.fields).map fun pv =>
            ("#" ++ pv.1.attributeName, pv.1.attributeName)))
          "#k" pk.attributeName
        expressionAttributeValues := foldInsert []
          ((updNonKey arg.fields).map fun pv => (":" ++ pv.1.attributeName, pv.2))
        conditionExpression := "attribute_exists(#k)" } := by
  have hKA : (arg.fields.foldl updStep {}).keyAttr = pk.attributeName := by
    rw [foldl_updStep_spec, hhash]; rfl
  have hKM : (arg.fields.foldl updStep {}).keyMap = [(pk.attributeName, kv)] := by
    rw [foldl_updStep_spec, hhash]; rfl
  have hUE : (arg.fields.foldl updStep {}).updateExpressions =
      (updNonKey arg.fields).map fun pv => clauseOf pv.1.attributeName := by
    rw [foldl_updStep_spec]; rfl
  have hEN : (arg.fields.foldl updStep {}).exprAttrNames =
      foldInsert [] ((updNonKey arg.fields).map fun pv =>
        ("#" ++ pv.1.attributeName, pv.1.attributeName)) := by
    rw [foldl_updStep_spec]
  have hEV : (arg.fields.foldl updStep {}).exprAttrValues =
      foldInsert [] ((updNonKey arg.fields).map fun pv =>
        (":" ++ pv.1.attributeName, pv.2)) := by
    rw [foldl_updStep_spec]
  have hUEne : ¬ (arg.fields.foldl updStep {}).updateExpressions = [] := by
    rw [hUE]
    simp only [ne_eq, List.map_eq_nil_iff]
    exact hnk
  simp only [updateRequest, hKA, hKM, hUE, hEN, hEV, hpk, hUEne, if_false]
  rw [if_neg (fun hmap => hnk (List.map_eq_nil_iff.mp hmap))]

lemma replaceFirst_length (p : Item → Bool) (new : Item) (l : List Item) :
    (replaceFirst p new l).length = l.length := by
  induction l with
  | nil => rfl
  | cons it rest ih =>
    unfold replaceFirst
    split <;> simp [ih]

lemma gatewayUpdateItem_ok_length (t : Table) (input : UpdateItemInput)
    (t' : Table) (h : gatewayUpdateItem t input = .ok t') :
    t'.items.length = t.items.length := by
  unfold gatewayUpdateItem at h
  repeat' split at h
  all_goals try exact Except.noConfusion h
  all_goals injection h with h2
  all_goals subst h2
  all_goals simp [replaceFirst_length]

lemma parseAttrExists_hash_k :
    parseAttrExists "attribute_exists(#k)" = some "#k" := by decide

lemma gatewayUpdateItem_notfound (t : Table) (input : UpdateItemInput)
    (hfault : t.fault = none)
    (hcond : parseAttrExists input.conditionExpression = some "#k")
    (hph : ∃ a, lookupAssoc input.expressionAttributeNames "#k" = some a)
    (hfind : t.items.find? (fun it => itemMatchesKey it input.key) = none) :
    gatewayUpdateItem t input = .error .condFailed := by
  obtain ⟨a, ha⟩ := hph
  simp only [gatewayUpdateItem, hfault, hcond, ha, hfind]

lemma gatewayUpdateItem_fault (t : Table) (input : UpdateItemInput)
    (cause : GoErr) (hfault : t.fault = some cause) :
    gatewayUpdateItem t input = .error (.transport cause) := by
  simp only [gatewayUpdateItem, hfault]

/-! ### C8 — Update's exists-condition and error mapping -/

/-- C8: for every record declaring exactly one hash-key field (attribute
non-empty) and at least one updatable field, Update's conditional request
carries the condition `attribute_exists(#k)` with the placeholder `#k`
bound to the hash-key attribute, and the update never grows the store (it
never creates an item); a conditional-check failure from the gateway — in
particular when no stored item matches the key — is returned as the
`ErrNotFound` sentinel with the store unchanged, and any other gateway
failure is returned as the wrapped `failed to update item` error
preserving the cause. -/
theorem update_exists_condition_and_error_mapping
    (r : Repository) (arg : GoItemArg) (pk : DynamoTagParser) (kv : AttrVal)
    (hhash : updHash arg.fields = [(pk, kv)])
    (hpk : ¬ pk.attributeName = "")
    (hnk : updNonKey arg.fields ≠ []) :
    ∃ input,
      updateRequest r arg = .ok input ∧
      input.conditionExpression = "attribute_exists(#k)" ∧
      lookupAssoc input.expressionAttributeNames "#k" = some pk.attributeName ∧
      (∀ t : Table, ((RepoUpdate r arg t).2.1).items.length = t.items.length) ∧
      (∀ t : Table, t.fault = none →
        t.items.find? (fun it => itemMatchesKey it input.key) = none →
        RepoUpdate r arg t = (.error ErrNotFound, t, [.updateReq input])) ∧
      (∀ (t : Table) (cause : GoErr), t.fault = some cause →
        RepoUpdate r arg t =
          (.error (.wrapped "failed to update item" cause), t,
            [.updateReq input])) := by
  have hreq := updateRequest_eq r arg pk kv hhash hpk hnk
  refine ⟨_, hreq, rfl, ?_, ?_, ?_, ?_⟩
  · rw [lookupAssoc_insertAssoc]
    simp
  · intro t
    simp only [RepoUpdate, hreq]
    split
    · rename_i t' hg
      simpa using gatewayUpdateItem_ok_length t _ t' hg
    · simp
    · simp
  · intro t hfault hfind
    simp only [RepoUpdate, hreq]
    rw [gatewayUpdateItem_notfound t _ hfault parseAttrExists_hash_k
      ⟨pk.attributeName, by rw [lookupAssoc_insertAssoc]; simp⟩ hfind]
  · intro t cause hfault
    simp only [RepoUpdate, hreq]
    rw [gatewayUpdateItem_fault t _ cause hfault]

/-- Closed witness for C8 at the concrete `User` record. -/
theorem update_exists_condition_witness :
    ∃ input, updateRequest demoRepo userArg = Except.ok input ∧
      input.conditionExpression = "attribute_exists(#k)" ∧
      lookupAssoc input.expressionAttributeNames "#k" = some "id" ∧
      RepoUpdate demoRepo userArg emptyTable =
        (.error ErrNotFound, emptyTable, [.updateReq input]) := by
  obtain ⟨input, h1, h2, h3, -, h5, -⟩ :=
    update_exists_condition_and_error_mapping demoRepo userArg
      { attributeName := "id", keyType := "hash", index := "", required := false }
      "u1" (by decide) (by decide) (by decide)
  exact ⟨input, h1, h2, h3, h5 emptyTable rfl (by rw [show input = _ from
    Except.ok.inj (h1.symm.trans (updateRequest_eq demoRepo userArg
      { attributeName := "id", keyType := "hash", index := "", required := false }
      "u1" (by decide) (by decide) (by decide)))]; decide)⟩


/-! ### Parsing the built SET expression back (gateway side) -/

lemma dropWhile_of_all_false (p : α → Bool) (l : List α)
    (h : ∀ x ∈ l, p x = false) : l.dropWhile p = l := by
  cases l with
  | nil => rfl
  | cons x xs =>
    rw [List.dropWhile_cons]
    simp [h x (List.mem_cons_self x xs)]

lemma trimSpaces_clean (l : List Char) (h : ∀ x ∈ l, ¬ x = ' ') :
    trimSpaces l = l := by
  unfold trimSpaces
  rw [dropWhile_of_all_false _ l (fun x hx => by simp [h x hx]),
    dropWhile_of_all_false _ l.reverse
      (fun x hx => by simp [h x (List.mem_reverse.mp hx)]),
    List.reverse_reverse]

lemma trimSpaces_cons_space (l : List Char) :
    trimSpaces (' ' :: l) = trimSpaces l := by
  unfold trimSpaces
  rw [List.dropWhile_cons]
  simp

lemma trimSpaces_append_space (l : List Char) (h : ∀ x ∈ l, ¬ x = ' ') :
    trimSpaces (l ++ [' ']) = l := by
  cases l with
  | nil => rfl
  | cons x xs =>
    have hx : ¬ x = ' ' := h x (by simp)
    unfold trimSpaces
    rw [List.cons_append, List.dropWhile_cons]
    simp only [hx, decide_False, Bool.false_eq_true, if_false]
    have h2 : (x :: (xs ++ [' '])).reverse = ' ' :: (x :: xs).reverse := by
      simp
    rw [h2, List.dropWhile_cons]
    simp only [decide_True, if_true]
    rw [dropWhile_of_all_false _ (x :: xs).reverse
      (fun y hy => by simp [h y (List.mem_reverse.mp hy)]),
      List.reverse_reverse]

lemma splitOnChar_not_mem (c : Char) (l : List Char) (h : c ∉ l) :
    splitOnChar c l = [l] := by
  induction l with
  | nil => rfl
  | cons x xs ih =>
    simp only [List.mem_cons, not_or] at h
    simp only [splitOnChar]
    rw [if_neg (fun he => h.1 he.symm), ih h.2]

lemma splitOnChar_sep_append (c : Char) (p rest : List Char) (hp : c ∉ p) :
    splitOnChar c (p ++ c :: rest) = p :: splitOnChar c rest := by
  induction p with
  | nil =>
    show splitOnChar c (c :: rest) = [] :: splitOnChar c rest
    simp only [splitOnChar]
    simp
  | cons x xs ih =>
    simp only [List.mem_cons, not_or] at hp
    show splitOnChar c (x :: (xs ++ c :: rest)) = (x :: xs) :: splitOnChar c rest
    simp only [splitOnChar]
    rw [if_neg (fun he => hp.1 he.symm), ih hp.2]

lemma intercalate_pair (sep : List α) (x y : List α) (zs : List (List α)) :
    List.intercalate sep (x :: y :: zs) =
      x ++ sep ++ List.intercalate sep (y :: zs) := by
  simp [List.intercalate, List.intersperse_cons_cons, List.append_assoc]

lemma intercalate_one (sep : List α) (x : List α) :
    List.intercalate sep [x] = x := by
  simp [List.intercalate]

lemma splitOnChar_commaSpace_join (parts : List (List Char)) (q : List Char)
    (hq : ',' ∉ q) (h : ∀ p ∈ parts, ',' ∉ p) :
    splitOnChar ',' (List.intercalate [',', ' '] (q :: parts)) =
      q :: parts.map (fun x => ' ' :: x) := by
  induction parts generalizing q with
  | nil =>
    rw [intercalate_one, splitOnChar_not_mem _ _ hq]
    rfl
  | cons p ps ih =>
    have hstep : List.intercalate [',', ' '] (q :: p :: ps) =
        q ++ ',' :: (' ' :: List.intercalate [',', ' '] (p :: ps)) := by
      rw [intercalate_pair]
      simp [List.append_assoc]
    rw [hstep, splitOnChar_sep_append ',' q _ hq]
    have hrec := ih p (h p (by simp)) (fun x hx => h x (by simp [hx]))
    show q :: splitOnChar ','
        (' ' :: List.intercalate [',', ' '] (p :: ps)) = _
    simp only [splitOnChar]
    rw [if_neg (by decide), hrec]
    rfl

lemma mem_cons_append_singleton (x y z : Char) (l : List Char)
    (hx : x ∈ y :: (l ++ [z])) : x = y ∨ x ∈ l ∨ x = z := by
  simp only [List.mem_cons, List.mem_append, List.mem_singleton] at hx
  tauto

lemma clauseOf_data (a : String) :
    (clauseOf a).data =
      ('#' :: (a.data ++ [' '])) ++ ('=' :: (' ' :: (':' :: a.data))) := by
  have h1 : ("#" : String).data = ['#'] := rfl
  have h2 : (" = :" : String).data = [' ', '=', ' ', ':'] := rfl
  simp [clauseOf, String.data_append, h1, h2]

lemma parseSetClause_built (a : String) (hs : identSafe a) :
    parseSetClause ((clauseOf a)).data = some ("#" ++ a, ":" ++ a) ∧
    parseSetClause (' ' :: (clauseOf a).data) = some ("#" ++ a, ":" ++ a) := by
  obtain ⟨-, -, hsp, heq⟩ := hs
  have hpre : ('=' : Char) ∉ '#' :: (a.data ++ [' ']) := by
    intro hmem
    rcases mem_cons_append_singleton '=' '#' ' ' a.data hmem with h | h | h
    · exact absurd h (by decide)
    · exact heq h
    · exact absurd h (by decide)
  have hrest : ('=' : Char) ∉ ' ' :: (':' :: a.data) := by
    intro hmem
    rcases List.mem_cons.mp hmem with h | hmem2
    · exact absurd h (by decide)
    rcases List.mem_cons.mp hmem2 with h | h
    · exact absurd h (by decide)
    · exact heq h
  have hsplit : splitOnChar '=' (clauseOf a).data =
      ['#' :: (a.data ++ [' ']), ' ' :: (':' :: a.data)] := by
    rw [clauseOf_data, splitOnChar_sep_append '=' _ _ hpre,
      splitOnChar_not_mem _ _ hrest]
  have hsplit2 : splitOnChar '=' (' ' :: (clauseOf a).data) =
      [' ' :: ('#' :: (a.data ++ [' '])), ' ' :: (':' :: a.data)] := by
    have : (' ' :: (clauseOf a).data) =
        (' ' :: ('#' :: (a.data ++ [' ']))) ++ ('=' :: (' ' :: (':' :: a.data))) := by
      rw [clauseOf_data]
      rfl
    rw [this, splitOnChar_sep_append '=' _ _ (by
      intro hmem
      rcases List.mem_cons.mp hmem with h | hmem2
      · exact absurd h (by decide)
      rcases mem_cons_append_singleton '=' '#' ' ' a.data hmem2 with h | h | h
      · exact absurd h (by decide)
      · exact heq h
      · exact absurd h (by decide)),
      splitOnChar_not_mem _ _ hrest]
  have htriml : trimSpaces ('#' :: (a.data ++ [' '])) = ("#" ++ a).data := by
    have : ('#' :: (a.data ++ [' '])) = ('#' :: a.data) ++ [' '] := by simp
    rw [this, trimSpaces_append_space ('#' :: a.data) (by
      intro y hy
      rcases List.mem_cons.mp hy with rfl | hy2
      · decide
      · exact fun hy3 => hsp (hy3 ▸ hy2))]
    rfl
  have htrimr : trimSpaces (' ' :: (':' :: a.data)) = (":" ++ a).data := by
    rw [trimSpaces_cons_space, trimSpaces_clean (':' :: a.data) (by
      intro y hy
      rcases List.mem_cons.mp hy with rfl | hy2
      · decide
      · exact fun hy3 => hsp (hy3 ▸ hy2))]
    rfl
  constructor
  · unfold parseSetClause
    rw [hsplit]
    simp only [htriml, htrimr]
  · unfold parseSetClause
    rw [hsplit2]
    simp only [trimSpaces_cons_space, htriml, htrimr]

lemma mapOption_map_of_some (f : β → Option γ) (g : α → β) (gr : α → γ)
    (l : List α) (H : ∀ x ∈ l, f (g x) = some (gr x)) :
    mapOption f (l.map g) = some (l.map gr) := by
  induction l with
  | nil => rfl
  | cons x xs ih =>
    simp only [List.map_cons]
    simp only [mapOption]
    rw [H x (by simp), ih (fun y hy => H y (by simp [hy]))]

lemma mem_clause_chars (x : Char) (a : String) (hx : x ∈ (clauseOf a).data) :
    x = '#' ∨ x = ' ' ∨ x = '=' ∨ x = ':' ∨ x ∈ a.data := by
  rw [clauseOf_data] at hx
  simp only [List.mem_cons, List.mem_append, List.mem_singleton] at hx
  tauto

lemma comma_not_in_clause (a : String) (hs : identSafe a) :
    (',' : Char) ∉ (clauseOf a).data := by
  obtain ⟨-, hc, -, -⟩ := hs
  intro hmem
  rcases mem_clause_chars ',' a hmem with h | h | h | h | h
  · exact absurd h (by decide)
  · exact absurd h (by decide)
  · exact absurd h (by decide)
  · exact absurd h (by decide)
  · exact hc h

lemma parseUpdateExpression_built (a0 : String) (attrs : List String)
    (hsafe : ∀ x ∈ a0 :: attrs, identSafe x) :
    parseUpdateExpression ("SET " ++ goJoin ", " ((a0 :: attrs).map clauseOf)) =
      some ((a0 :: attrs).map fun a => ("#" ++ a, ":" ++ a)) := by
  have hdata : ("SET " ++ goJoin ", " ((a0 :: attrs).map clauseOf)).data =
      "SET ".data ++ List.intercalate [',', ' ']
        ((clauseOf a0).data :: attrs.map (fun a => (clauseOf a).data)) := by
    have hj : (", " : String).data = [',', ' '] := rfl
    simp only [goJoin, String.data_append, hj, List.map_map, List.map_cons]
    rfl
  have htake : ("SET ".data ++ List.intercalate [',', ' ']
      ((clauseOf a0).data :: attrs.map (fun a => (clauseOf a).data))).take 4 =
      "SET ".data := by
    have hl : ("SET ".data).length = 4 := rfl
    rw [← hl, List.take_left]
  have hdrop : ("SET ".data ++ List.intercalate [',', ' ']
      ((clauseOf a0).data :: attrs.map (fun a => (clauseOf a).data))).drop 4 =
      List.intercalate [',', ' ']
        ((clauseOf a0).data :: attrs.map (fun a => (clauseOf a).data)) := by
    have hl : ("SET ".data).length = 4 := rfl
    rw [← hl, List.drop_left]
  have hsplit := splitOnChar_commaSpace_join
    (attrs.map (fun a => (clauseOf a).data)) (clauseOf a0).data
    (comma_not_in_clause a0 (hsafe a0 (by simp)))
    (by
      intro piece hpiece
      rcases List.mem_map.mp hpiece with ⟨a, ha, rfl⟩
      exact comma_not_in_clause a (hsafe a (by simp [ha])))
  simp only [parseUpdateExpression]
  rw [hdata, htake, hdrop]
  simp only [if_pos rfl]
  rw [hsplit]
  simp only [mapOption]
  rw [(parseSetClause_built a0 (hsafe a0 (by simp))).1]
  rw [List.map_map]
  simp only [Function.comp_def]
  rw [mapOption_map_of_some parseSetClause
    (fun a => ' ' :: (clauseOf a).data) (fun a => ("#" ++ a, ":" ++ a)) attrs
    (fun a ha => (parseSetClause_built a (hsafe a (by simp [ha]))).2)]
  simp


/-! ### Association-list lookups through the placeholder maps -/

lemma string_append_left_cancel (s x y : String) (h : s ++ x = s ++ y) :
    x = y := by
  have hd := congrArg String.data h
  simp only [String.data_append] at hd
  have hxy := List.append_cancel_left hd
  obtain ⟨dx⟩ := x
  obtain ⟨dy⟩ := y
  exact congrArg String.mk hxy

lemma lookupAssoc_of_mem_nodup (L : List (String × β)) (k : String) (v : β)
    (hd : (L.map Prod.fst).Nodup) (hm : (k, v) ∈ L) :
    lookupAssoc L k = some v := by
  induction L with
  | nil => cases hm
  | cons kv rest ih =>
    obtain ⟨a, b⟩ := kv
    simp only [List.map_cons, List.nodup_cons] at hd
    rcases List.mem_cons.mp hm with he | hm2
    · cases he
      unfold lookupAssoc
      rw [if_pos rfl]
    · have hak : ¬ a = k := fun he2 => hd.1 (he2 ▸ List.mem_map_of_mem Prod.fst hm2)
      unfold lookupAssoc
      rw [if_neg hak]
      exact ih hd.2 hm2

lemma lookupAssoc_foldInsert_not_mem (L : List (String × β))
    (m : List (String × β)) (q : String) (h : q ∉ L.map Prod.fst) :
    lookupAssoc (foldInsert m L) q = lookupAssoc m q := by
  induction L generalizing m with
  | nil => rfl
  | cons kv rest ih =>
    obtain ⟨a, b⟩ := kv
    simp only [List.map_cons, List.mem_cons, not_or] at h
    show lookupAssoc (foldInsert (insertAssoc m a b) rest) q = _
    rw [ih _ h.2, lookupAssoc_insertAssoc,
      if_neg (fun he => h.1 he.symm)]

lemma lookupAssoc_foldInsert_mem_nodup (L : List (String × β))
    (m : List (String × β)) (k : String) (v : β)
    (hd : (L.map Prod.fst).Nodup) (hm : (k, v) ∈ L) :
    lookupAssoc (foldInsert m L) k = some v := by
  induction L generalizing m with
  | nil => cases hm
  | cons kv rest ih =>
    obtain ⟨a, b⟩ := kv
    simp only [List.map_cons, List.nodup_cons] at hd
    rcases List.mem_cons.mp hm with he | hm2
    · cases he
      show lookupAssoc (foldInsert (insertAssoc m k v) rest) k = some v
      rw [lookupAssoc_foldInsert_not_mem rest _ k hd.1,
        lookupAssoc_insertAssoc, if_pos rfl]
    · show lookupAssoc (foldInsert (insertAssoc m a b) rest) k = some v
      exact ih _ hd.2 hm2

lemma gatewayUpdateItem_applies (t : Table) (input : UpdateItemInput)
    (old : Item) (condAttr : String) (clauses : List (String × String))
    (resolved : List (String × AttrVal))
    (hfault : t.fault = none)
    (hcond : parseAttrExists input.conditionExpression = some "#k")
    (ha : lookupAssoc input.expressionAttributeNames "#k" = some condAttr)
    (hfind : t.items.find? (fun it => itemMatchesKey it input.key) = some old)
    (hsomecond : (lookupAssoc old condAttr).isSome = true)
    (hparse : parseUpdateExpression input.updateExpression = some clauses)
    (hmapopt : mapOption (resolveClause input.expressionAttributeNames
      input.expressionAttributeValues) clauses = some resolved) :
    gatewayUpdateItem t input = .ok { t with items := replaceFirst (fun i => itemMatchesKey i input.key) (foldInsert old resolved) t.items } := by
  simp only [gatewayUpdateItem, hfault, hcond, ha, hfind, hsomecond, hparse,
    hmapopt, if_true]

/-! ### C2 — Update's frame effect on the stored item -/

/-- C2: for every existing item and every record passed to Update (under the
spec's schema invariants: unique, expression-safe attribute names, exactly
one hash key, at least one updatable field, and no non-key attribute named
`k`, the code's internal key placeholder), the resulting store mutation
replaces only the item matching the key, and the replacement changes only
the non-key attributes submitted in the record — every attribute of the
stored item not submitted in the update keeps exactly its old value, and
every submitted attribute carries the submitted value. -/
theorem update_changes_only_submitted_nonkey_attributes
    (r : Repository) (arg : GoItemArg) (t : Table) (old : Item)
    (pk : DynamoTagParser) (kv : AttrVal)
    (hhash : updHash arg.fields = [(pk, kv)])
    (hnk : updNonKey arg.fields ≠ [])
    (hnd : ((updDecls arg.fields).map fun pv => pv.1.attributeName).Nodup)
    (hsafe : ∀ pv ∈ updDecls arg.fields, identSafe pv.1.attributeName)
    (hknot : ∀ pv ∈ updNonKey arg.fields, ¬ pv.1.attributeName = "k")
    (hfault : t.fault = none)
    (hfound : t.items.find?
      (fun it => itemMatchesKey it [(pk.attributeName, kv)]) = some old) :
    ∃ input,
      updateRequest r arg = .ok input ∧
      RepoUpdate r arg t =
        (.ok (), { t with items := replaceFirst (fun i => itemMatchesKey i [(pk.attributeName, kv)]) (foldInsert old ((updNonKey arg.fields).map fun pv => (pv.1.attributeName, pv.2))) t.items },
          [.updateReq input]) ∧
      (∀ q, q ∉ (updNonKey arg.fields).map (fun pv => pv.1.attributeName) →
        lookupAssoc (foldInsert old ((updNonKey arg.fields).map fun pv =>
          (pv.1.attributeName, pv.2))) q = lookupAssoc old q) ∧
      (∀ pv ∈ updNonKey arg.fields,
        lookupAssoc (foldInsert old ((updNonKey arg.fields).map fun pv2 =>
          (pv2.1.attributeName, pv2.2))) pv.1.attributeName = some pv.2) := by
  have hpkmem : (pk, kv) ∈ updDecls arg.fields := by
    have hm : (pk, kv) ∈ updHash arg.fields := by rw [hhash]; simp
    exact List.mem_of_mem_filter hm
  have hpk : ¬ pk.attributeName = "" := (hsafe _ hpkmem).1
  have hreq := updateRequest_eq r arg pk kv hhash hpk hnk
  have hsafeNK : ∀ pv ∈ updNonKey arg.fields, identSafe pv.1.attributeName :=
    fun pv hpv => hsafe pv (List.mem_of_mem_filter hpv)
  have hnknd : ((updNonKey arg.fields).map fun pv => pv.1.attributeName).Nodup :=
    List.Nodup.sublist (List.Sublist.map _ (List.filter_sublist _)) hnd
  have hinjpre : ∀ s : String, Function.Injective (fun x : String => s ++ x) :=
    fun s x y h => string_append_left_cancel s x y h
  have hndNL : (((updNonKey arg.fields).map fun pv =>
      ("#" ++ pv.1.attributeName, pv.1.attributeName)).map Prod.fst).Nodup := by
    have he : ((updNonKey arg.fields).map fun pv =>
        ("#" ++ pv.1.attributeName, pv.1.attributeName)).map Prod.fst =
        ((updNonKey arg.fields).map fun pv => pv.1.attributeName).map
          (fun x => "#" ++ x) := by
      rw [List.map_map, List.map_map]
      rfl
    rw [he]
    exact List.Nodup.map (hinjpre "#") hnknd
  have hndLV : (((updNonKey arg.fields).map fun pv =>
      (":" ++ pv.1.attributeName, pv.2)).map Prod.fst).Nodup := by
    have he : ((updNonKey arg.fields).map fun pv =>
        (":" ++ pv.1.attributeName, pv.2)).map Prod.fst =
        ((updNonKey arg.fields).map fun pv => pv.1.attributeName).map
          (fun x => ":" ++ x) := by
      rw [List.map_map, List.map_map]
      rfl
    rw [he]
    exact List.Nodup.map (hinjpre ":") hnknd
  have hres : ∀ pv ∈ updNonKey arg.fields,
      resolveClause
        (insertAssoc (foldInsert [] ((updNonKey arg.fields).map fun pv2 =>
          ("#" ++ pv2.1.attributeName, pv2.1.attributeName))) "#k" pk.attributeName)
        (foldInsert [] ((updNonKey arg.fields).map fun pv2 =>
          (":" ++ pv2.1.attributeName, pv2.2)))
        ("#" ++ pv.1.attributeName, ":" ++ pv.1.attributeName) =
        some (pv.1.attributeName, pv.2) := by
    intro pv hpv
    unfold resolveClause
    have hn : lookupAssoc
        (insertAssoc (foldInsert [] ((updNonKey arg.fields).map fun pv2 =>
          ("#" ++ pv2.1.attributeName, pv2.1.attributeName))) "#k" pk.attributeName)
        ("#" ++ pv.1.attributeName) = some pv.1.attributeName := by
      rw [lookupAssoc_insertAssoc,
        if_neg (show ¬ ("#k" = "#" ++ pv.1.attributeName) from
          fun he => hknot pv hpv
            (string_append_left_cancel "#" "k" _ he).symm)]
      exact lookupAssoc_foldInsert_mem_nodup _ _ _ _ hndNL
        (List.mem_map_of_mem _ hpv)
    have hv : lookupAssoc
        (foldInsert [] ((updNonKey arg.fields).map fun pv2 =>
          (":" ++ pv2.1.attributeName, pv2.2))) (":" ++ pv.1.attributeName) =
        some pv.2 :=
      lookupAssoc_foldInsert_mem_nodup _ _ _ _ hndLV
        (List.mem_map_of_mem _ hpv)
    rw [hn, hv]
  have hcondItem : (lookupAssoc old pk.attributeName).isSome = true := by
    have hp := List.find?_some hfound
    simp only [itemMatchesKey, List.all_cons, List.all_nil, Bool.and_true,
      beq_iff_eq] at hp
    rw [hp]
    rfl
  obtain ⟨pv0, nkrest, hnkcons⟩ : ∃ a b, updNonKey arg.fields = a :: b := by
    cases hnkc : updNonKey arg.fields with
    | nil => exact absurd hnkc hnk
    | cons a b => exact ⟨a, b, rfl⟩
  have hsafelist : ∀ x ∈ pv0.1.attributeName ::
      (nkrest.map fun pv => pv.1.attributeName), identSafe x := by
    intro x hx
    rcases List.mem_cons.mp hx with rfl | hx2
    · exact hsafeNK pv0 (by rw [hnkcons]; simp)
    · rcases List.mem_map.mp hx2 with ⟨pv, hpv, rfl⟩
      exact hsafeNK pv (by rw [hnkcons]; simp [hpv])
  have hmapclause : ((updNonKey arg.fields).map fun pv =>
      clauseOf pv.1.attributeName) =
      ((pv0.1.attributeName :: (nkrest.map fun pv => pv.1.attributeName)).map
        clauseOf) := by
    rw [hnkcons]
    simp [List.map_map]
  have hparse : parseUpdateExpression ("SET " ++ goJoin ", "
      ((updNonKey arg.fields).map fun pv => clauseOf pv.1.attributeName)) =
      some ((updNonKey arg.fields).map fun pv =>
        ("#" ++ pv.1.attributeName, ":" ++ pv.1.attributeName)) := by
    rw [hmapclause, parseUpdateExpression_built _ _ hsafelist, hnkcons]
    simp [List.map_map]
  have hmapopt := mapOption_map_of_some
    (resolveClause
      (insertAssoc (foldInsert [] ((updNonKey arg.fields).map fun pv2 =>
        ("#" ++ pv2.1.attributeName, pv2.1.attributeName))) "#k" pk.attributeName)
      (foldInsert [] ((updNonKey arg.fields).map fun pv2 =>
        (":" ++ pv2.1.attributeName, pv2.2))))
    (fun pv => ("#" ++ pv.1.attributeName, ":" ++ pv.1.attributeName))
    (fun pv => (pv.1.attributeName, pv.2))
    (updNonKey arg.fields) hres
  have haK : lookupAssoc (insertAssoc (foldInsert []
      ((updNonKey arg.fields).map fun pv2 =>
        ("#" ++ pv2.1.attributeName, pv2.1.attributeName))) "#k" pk.attributeName)
      "#k" = some pk.attributeName := by
    rw [lookupAssoc_insertAssoc, if_pos rfl]
  have happ := gatewayUpdateItem_applies t
    { tableName := getTableName r arg.tableNamer
      key := [(pk.attributeName, kv)]
      updateExpression := "SET " ++ goJoin ", " ((updNonKey arg.fields).map fun pv => clauseOf pv.1.attributeName)
      expressionAttributeNames := insertAssoc (foldInsert [] ((updNonKey arg.fields).map fun pv2 => ("#" ++ pv2.1.attributeName, pv2.1.attributeName))) "#k" pk.attributeName
      expressionAttributeValues := foldInsert [] ((updNonKey arg.fields).map fun pv2 => (":" ++ pv2.1.attributeName, pv2.2))
      conditionExpression := "attribute_exists(#k)" }
    old pk.attributeName
    ((updNonKey arg.fields).map fun pv =>
      ("#" ++ pv.1.attributeName, ":" ++ pv.1.attributeName))
    ((updNonKey arg.fields).map fun pv => (pv.1.attributeName, pv.2))
    hfault parseAttrExists_hash_k haK hfound hcondItem hparse hmapopt
  refine ⟨_, hreq, ?_, ?_, ?_⟩
  · simp only [RepoUpdate, hreq, happ]
  · intro q hq
    exact lookupAssoc_foldInsert_not_mem _ _ _
      (by rw [List.map_map]; exact hq)
  · intro pv hpv
    exact lookupAssoc_foldInsert_mem_nodup _ _ _ _
      (by rw [List.map_map]; exact hnknd) (List.mem_map_of_mem _ hpv)

/-- Closed witness for C2: updating only `name` on `u1` leaves `email` and
`created_at` of the stored item unchanged and sets `name` to the submitted
value, touching no other item. -/
theorem update_changes_only_submitted_witness :
    ∃ input, updateRequest demoRepo nameOnlyUpdArg = Except.ok input ∧
      RepoUpdate demoRepo nameOnlyUpdArg twoUserTable =
        (Except.ok (), { twoUserTable with items := replaceFirst (fun i => itemMatchesKey i [("id", "u1")]) (foldInsert storedUser ((updNonKey nameOnlyUpdFields).map fun pv => (pv.1.attributeName, pv.2))) twoUserTable.items },
          [Request.updateReq input]) ∧
      lookupAssoc (foldInsert storedUser
        ((updNonKey nameOnlyUpdFields).map fun pv =>
          (pv.1.attributeName, pv.2))) "email" = lookupAssoc storedUser "email" ∧
      lookupAssoc (foldInsert storedUser
        ((updNonKey nameOnlyUpdFields).map fun pv =>
          (pv.1.attributeName, pv.2))) "name" = some "B" := by
  obtain ⟨input, h1, h2, h3, h4⟩ :=
    update_changes_only_submitted_nonkey_attributes demoRepo nameOnlyUpdArg
      twoUserTable storedUser
      { attributeName := "id", keyType := "hash", index := "", required := false }
      "u1" (by decide) (by decide) (by decide) (by decide) (by decide) rfl
      (by decide)
  refine ⟨input, h1, h2, h3 "email" (by decide), ?_⟩
  exact h4 (({ attributeName := "name", keyType := "", index := "", required := false } : DynamoTagParser), "B") (by decide)

end GoAws
